import Mathlib

/-!
Verification development for the "arboles" L-System plant renderer.

The embedding covers the two algorithmic components of the repository:

* `LSystem` (src/lsystem/LSystem.h, LSystem.cpp): parallel string rewriting.
  Strings are `List Char`; the `std::map<char, std::string>` of production
  rules is an association list with unique keys, looked up with
  `List.lookup` (matching `std::map::find`).  The C++ member `axiom` is a
  Lean keyword, so the field is called `omega` here, following the header
  comment "Cadena inicial (omega)".

* `TurtleGraphics` (TurtleGraphics.h / TurtleGraphics.cpp): the unified
  turtle interpreter.  `float` scalars are embedded as `ℚ`; the
  transcendental float functions `std::cos`, `std::sin` (applied to
  `glm::radians` of a degree angle) and the square root inside
  `glm::normalize` cannot be represented exactly, so they are uninterpreted
  parameters gathered in a `TrigQ` record.  Every claim proved here either
  holds for all values of those parameters or is evaluated at an exact
  instance (e.g. a 90 degree rotation, whose cosine is 0 and sine is 1).
-/

-- ===========================================================================
-- L-System (LSystem.cpp)
-- ===========================================================================

/-- State of the `LSystem` class: initial string (`axiom` member, called
`omega` here), production rules, current expansion, angle, generation. -/
structure LSystem where
  omega : List Char
  rules : List (Char × List Char)
  currentString : List Char
  angle : ℚ
  currentGeneration : ℕ
  deriving DecidableEq

/-- One symbol's rewrite: `rules[symbol]` if a rule exists, else the symbol
itself (LSystem.cpp lines 114-123). -/
def rewriteSymbol (rules : List (Char × List Char)) (symbol : Char) : List Char :=
  match rules.lookup symbol with
  | some replacement => replacement
  | none => [symbol]

/-- Build a new string by scanning left to right and appending the image of
each symbol (the inner loop of `LSystem::generate`). -/
def expandWith (f : Char → List Char) : List Char → List Char
  | [] => []
  | c :: rest => f c ++ expandWith f rest

/-- One parallel rewriting pass over the whole current string. -/
def rewriteStep (rules : List (Char × List Char)) (s : List Char) : List Char :=
  expandWith (rewriteSymbol rules) s

/-- The generation loop of `LSystem::generate`: apply `rewriteStep` the
requested number of times, incrementing the generation counter each pass. -/
def genLoop (rules : List (Char × List Char)) :
    ℕ → List Char → ℕ → List Char × ℕ
  | 0, s, g => (s, g)
  | n + 1, s, g => genLoop rules n (rewriteStep rules s) (g + 1)

/-- `LSystem::generate(n)`: reset the working string to the axiom and the
counter to 0, then apply the rules `n` times (LSystem.cpp lines 103-132). -/
def LSystem.generate (L : LSystem) (n : ℕ) : LSystem :=
  let p := genLoop L.rules n L.omega 0
  { L with currentString := p.1, currentGeneration := p.2 }

/-- `LSystem::getString()`. -/
def LSystem.getString (L : LSystem) : List Char :=
  L.currentString

/-- `LSystem::getGeneration()`. -/
def LSystem.getGeneration (L : LSystem) : ℕ :=
  L.currentGeneration

/-- An `LSystem` as produced by `setAxiom` plus `addRule` calls: the current
string starts at the axiom, generation 0. -/
def mkLSystem (ax : List Char) (rs : List (Char × List Char)) : LSystem :=
  { omega := ax, rules := rs, currentString := ax, angle := 0,
    currentGeneration := 0 }

/-- The Fibonacci-word grammar of claim C1: axiom `A`, rules `A -> AB`,
`B -> A`. -/
def fibL : LSystem :=
  mkLSystem ("A".toList) [('A', "AB".toList), ('B', "A".toList)]

/-- The Koch grammar of claim C5: axiom `F`, rule `F -> F+F--F+F`. -/
def kochL : LSystem :=
  mkLSystem ("F".toList) [('F', "F+F--F+F".toList)]

lemma genLoop_snd (rules : List (Char × List Char)) :
    ∀ (n : ℕ) (s : List Char) (g : ℕ), (genLoop rules n s g).2 = g + n
  | 0, _, g => by simp [genLoop]
  | n + 1, s, g => by
      rw [genLoop, genLoop_snd rules n]
      omega

lemma generate_getString (L : LSystem) (n : ℕ) :
    (L.generate n).getString = (genLoop L.rules n L.omega 0).1 := rfl

lemma generate_getGeneration (L : LSystem) (n : ℕ) :
    (L.generate n).getGeneration = n := by
  show (genLoop L.rules n L.omega 0).2 = n
  rw [genLoop_snd]
  omega

lemma expandWith_congr (f g : Char → List Char) (h : ∀ c, f c = g c) :
    ∀ l : List Char, expandWith f l = expandWith g l
  | [] => rfl
  | c :: rest => by
      rw [expandWith, expandWith, h c, expandWith_congr f g h rest]

/-- C1: with axiom `A` and rules `A -> AB`, `B -> A`, `generate(n)` followed
by `getString()` yields `A`, `AB`, `ABA`, `ABAAB`, `ABAABABA` for
`n = 0..4`, of lengths 1, 2, 3, 5, 8, and `getGeneration()` returns `n`. -/
theorem lsystem_fibonacci_generate_c1 :
    ((fibL.generate 0).getString = "A".toList ∧
      (fibL.generate 0).getString.length = 1 ∧
      (fibL.generate 0).getGeneration = 0) ∧
    ((fibL.generate 1).getString = "AB".toList ∧
      (fibL.generate 1).getString.length = 2 ∧
      (fibL.generate 1).getGeneration = 1) ∧
    ((fibL.generate 2).getString = "ABA".toList ∧
      (fibL.generate 2).getString.length = 3 ∧
      (fibL.generate 2).getGeneration = 2) ∧
    ((fibL.generate 3).getString = "ABAAB".toList ∧
      (fibL.generate 3).getString.length = 5 ∧
      (fibL.generate 3).getGeneration = 3) ∧
    ((fibL.generate 4).getString = "ABAABABA".toList ∧
      (fibL.generate 4).getString.length = 8 ∧
      (fibL.generate 4).getGeneration = 4) := by
  decide

/-- C5 counterexample: the claimed lengths 5 (generation 1) and 25
(generation 2) are wrong for the Koch grammar: the actual lengths are 8
and 36. -/
theorem koch_length_c5_cex :
    (kochL.generate 1).getString.length ≠ 5 ∧
    (kochL.generate 2).getString.length ≠ 25 := by
  decide

/-- C5 (amended): with axiom `F` and rule `F -> F+F--F+F`, `generate`
produces string lengths 1, 8, 36 at generations 0, 1, 2; the generation-1
string is exactly `F+F--F+F`, and the generation-2 string is the
generation-1 string with every symbol rewritten by the rules (each `F`
substituted, the rest copied), of length 36. -/
theorem koch_generate_c5 :
    (kochL.generate 0).getString = "F".toList ∧
    (kochL.generate 0).getString.length = 1 ∧
    (kochL.generate 1).getString = "F+F--F+F".toList ∧
    (kochL.generate 1).getString.length = 8 ∧
    (kochL.generate 2).getString = rewriteStep kochL.rules ((kochL.generate 1).getString) ∧
    (kochL.generate 2).getString.length = 36 := by
  decide

/-- C6: for every axiom and rule set and every symbol `s` with no entry in
the rule map, one rewriting pass (`generate(1)`) copies each occurrence of
`s` unchanged in place: the string after one pass equals the axiom expanded
symbol by symbol, where occurrences of `s` map to themselves. -/
theorem no_rule_identity_c6 (L : LSystem) (s : Char)
    (h : L.rules.lookup s = none) :
    (L.generate 1).getString =
      expandWith (fun c => if c = s then [c] else rewriteSymbol L.rules c)
        L.omega := by
  show rewriteStep L.rules L.omega = _
  unfold rewriteStep
  apply expandWith_congr
  intro c
  by_cases hc : c = s
  · subst hc
    rw [if_pos rfl]
    simp [rewriteSymbol, h]
  · rw [if_neg hc]

theorem no_rule_identity_c6_witness :
    fibL.rules.lookup 'X' = none ∧
    (fibL.generate 1).getString =
      expandWith (fun c => if c = 'X' then [c] else rewriteSymbol fibL.rules c)
        fibL.omega :=
  ⟨by decide, no_rule_identity_c6 fibL 'X' (by decide)⟩

/-- C8: `generate(n)` is deterministic and idempotent given identical axiom,
rules and `n`: two systems agreeing on axiom and rules produce identical
`getString()` results regardless of their current string or generation
counter, and calling `generate(n)` again on the result changes nothing,
since each call restarts the working string from the axiom. -/
theorem generate_deterministic_c8 (L1 L2 : LSystem) (n : ℕ)
    (hax : L1.omega = L2.omega) (hr : L1.rules = L2.rules) :
    (L1.generate n).getString = (L2.generate n).getString ∧
    ((L1.generate n).generate n).getString = (L1.generate n).getString ∧
    ((L1.generate n).generate n).getGeneration =
      (L1.generate n).getGeneration := by
  refine ⟨?_, rfl, ?_⟩
  · show (genLoop L1.rules n L1.omega 0).1 = (genLoop L2.rules n L2.omega 0).1
    rw [hax, hr]
  · rw [generate_getGeneration, generate_getGeneration]

/-- A copy of `fibL` whose current string and generation counter hold stale
values, as after unrelated earlier calls. -/
def fibDirty : LSystem :=
  { fibL with currentString := "ZZZ".toList, currentGeneration := 9 }

theorem generate_deterministic_c8_witness :
    fibDirty.omega = fibL.omega ∧
    fibDirty.rules = fibL.rules ∧
    ((fibDirty.generate 3).getString = (fibL.generate 3).getString ∧
      ((fibDirty.generate 3).generate 3).getString
        = (fibDirty.generate 3).getString ∧
      ((fibDirty.generate 3).generate 3).getGeneration
        = (fibDirty.generate 3).getGeneration) :=
  ⟨rfl, rfl, generate_deterministic_c8 fibDirty fibL 3 rfl rfl⟩

-- ===========================================================================
-- Turtle graphics (TurtleGraphics.h / TurtleGraphics.cpp)
-- ===========================================================================

/-- `glm::vec3` with exact rational components. -/
@[ext]
structure Vec3 where
  x : ℚ
  y : ℚ
  z : ℚ
  deriving DecidableEq

instance : Add Vec3 :=
  ⟨fun a b => ⟨a.x + b.x, a.y + b.y, a.z + b.z⟩⟩

instance : SMul ℚ Vec3 :=
  ⟨fun r v => ⟨r * v.x, r * v.y, r * v.z⟩⟩

/-- `glm::cross`. -/
def Vec3.cross (a b : Vec3) : Vec3 :=
  ⟨a.y * b.z - a.z * b.y, a.z * b.x - a.x * b.z, a.x * b.y - a.y * b.x⟩

/-- `glm::dot`. -/
def Vec3.dot (a b : Vec3) : ℚ :=
  a.x * b.x + a.y * b.y + a.z * b.z

/-- Uninterpreted parameters standing for the float transcendental functions
used by the interpreter: `cosD`/`sinD` model `std::cos`/`std::sin` composed
with `glm::radians` (degree input), `sqrtQ` models the square root inside
`glm::normalize`. -/
structure TrigQ where
  cosD : ℚ → ℚ
  sinD : ℚ → ℚ
  sqrtQ : ℚ → ℚ

/-- `glm::normalize`: divide a vector by the square root of its squared
length. -/
def normalizeV (T : TrigQ) (v : Vec3) : Vec3 :=
  (T.sqrtQ (Vec3.dot v v))⁻¹ • v

/-- `TurtleGraphics::rotateAroundAxis` (Rodrigues' rotation formula, with the
axis normalized first). -/
def rotateAroundAxis (T : TrigQ) (vec axis : Vec3) (angleDeg : ℚ) : Vec3 :=
  let cosA := T.cosD angleDeg
  let sinA := T.sinD angleDeg
  let k := normalizeV T axis
  cosA • vec + sinA • Vec3.cross k vec + (Vec3.dot k vec * (1 - cosA)) • k

/-- `TurtleState` with the default member initializers of TurtleGraphics.h
(position origin, heading +Y, left -X, up +Z, width 0.02, brown color,
depth 0). -/
structure TurtleState where
  position : Vec3 := ⟨0, 0, 0⟩
  heading : Vec3 := ⟨0, 1, 0⟩
  left : Vec3 := ⟨-1, 0, 0⟩
  up : Vec3 := ⟨0, 0, 1⟩
  width : ℚ := 1 / 50
  color : Vec3 := ⟨9 / 20, 3 / 10, 3 / 20⟩
  depth : ℤ := 0
  deriving DecidableEq

/-- `BranchData`: one tapered segment.  The C++ field `end` is a Lean
keyword; it is called `stop` here. -/
structure BranchData where
  start : Vec3
  stop : Vec3
  radiusStart : ℚ
  radiusEnd : ℚ
  color : Vec3
  deriving DecidableEq

/-- Orientation frame of a decoration, the three rotation columns of the
`glm::mat4` built in the `L`/`K` cases (right, forward, up). -/
structure OrientFrame where
  colRight : Vec3
  colForward : Vec3
  colUp : Vec3
  deriving DecidableEq

/-- `DecorationData`: a leaf (`type = 0`) or flower (`type = 1`). -/
structure DecorationData where
  position : Vec3
  orientation : OrientFrame
  color : Vec3
  size : ℚ
  type : ℤ
  deriving DecidableEq

/-- The configuration members of `TurtleGraphics`, with their default
initializers (stepSize 0.08, initialWidth 0.02, widthDecay 0.7, leafSize
0.08, the three default colors, 2D mode), plus the trig parameters. -/
structure TGConfig where
  is3D : Bool := false
  stepSize : ℚ := 2 / 25
  initialWidth : ℚ := 1 / 50
  widthDecay : ℚ := 7 / 10
  leafSize : ℚ := 2 / 25
  branchColor : Vec3 := ⟨2 / 5, 1 / 4, 1 / 10⟩
  leafColor : Vec3 := ⟨3 / 20, 11 / 20, 3 / 20⟩
  flowerColor : Vec3 := ⟨1, 9 / 20, 7 / 10⟩
  trig : TrigQ

/-- The mutable interpretation state of `TurtleGraphics`: current turtle
state, the state stack (head = top), and the two geometry lists in emission
order. -/
structure TGState where
  current : TurtleState
  stack : List TurtleState
  branches : List BranchData
  decorations : List DecorationData
  deriving DecidableEq

/-- `TurtleGraphics::processCommand`, one `switch` case per command
(TurtleGraphics.cpp lines 984-1153).  The color-shift command is the
apostrophe character, written `Char.ofNat 39`. -/
def processCommand (cfg : TGConfig) (cmd : Char) (angle : ℚ) (st : TGState) :
    TGState :=
  if cmd = 'F' ∨ cmd = 'G' ∨ cmd = 'A' ∨ cmd = 'B' then
    let endPos := st.current.position + cfg.stepSize • st.current.heading
    let branch : BranchData :=
      { start := st.current.position, stop := endPos,
        radiusStart := st.current.width,
        radiusEnd := st.current.width * cfg.widthDecay,
        color := st.current.color }
    { st with current := { st.current with position := endPos },
              branches := st.branches ++ [branch] }
  else if cmd = 'f' then
    { st with current := { st.current with
        position := st.current.position + cfg.stepSize • st.current.heading } }
  else if cmd = '+' then
    let axis := if cfg.is3D then st.current.up else Vec3.mk 0 0 1
    { st with current := { st.current with
        heading := rotateAroundAxis cfg.trig st.current.heading axis angle,
        left := rotateAroundAxis cfg.trig st.current.left axis angle } }
  else if cmd = '-' then
    let axis := if cfg.is3D then st.current.up else Vec3.mk 0 0 1
    { st with current := { st.current with
        heading := rotateAroundAxis cfg.trig st.current.heading axis (-angle),
        left := rotateAroundAxis cfg.trig st.current.left axis (-angle) } }
  else if cmd = '&' then
    { st with current := { st.current with
        heading := rotateAroundAxis cfg.trig st.current.heading
          st.current.left angle,
        up := rotateAroundAxis cfg.trig st.current.up st.current.left angle } }
  else if cmd = '^' then
    { st with current := { st.current with
        heading := rotateAroundAxis cfg.trig st.current.heading
          st.current.left (-angle),
        up := rotateAroundAxis cfg.trig st.current.up st.current.left
          (-angle) } }
  else if cmd = '\\' then
    { st with current := { st.current with
        left := rotateAroundAxis cfg.trig st.current.left
          st.current.heading angle,
        up := rotateAroundAxis cfg.trig st.current.up st.current.heading
          angle } }
  else if cmd = '/' then
    { st with current := { st.current with
        left := rotateAroundAxis cfg.trig st.current.left
          st.current.heading (-angle),
        up := rotateAroundAxis cfg.trig st.current.up st.current.heading
          (-angle) } }
  else if cmd = '|' then
    let axis := if cfg.is3D then st.current.up else Vec3.mk 0 0 1
    { st with current := { st.current with
        heading := rotateAroundAxis cfg.trig st.current.heading axis 180,
        left := rotateAroundAxis cfg.trig st.current.left axis 180 } }
  else if cmd = '[' then
    { st with stack := st.current :: st.stack,
              current := { st.current with
                depth := st.current.depth + 1,
                width := st.current.width * cfg.widthDecay } }
  else if cmd = ']' then
    match st.stack with
    | top :: rest => { st with current := top, stack := rest }
    | [] => st
  else if cmd = 'L' ∨ cmd = 'l' then
    let forward := normalizeV cfg.trig st.current.heading
    let right := normalizeV cfg.trig (Vec3.cross forward st.current.up)
    let upCol := Vec3.cross right forward
    let leaf : DecorationData :=
      { position := st.current.position,
        orientation := ⟨right, forward, upCol⟩,
        color := cfg.leafColor, size := cfg.leafSize, type := 0 }
    { st with decorations := st.decorations ++ [leaf] }
  else if cmd = 'K' ∨ cmd = 'k' then
    let forward := normalizeV cfg.trig st.current.heading
    let right := normalizeV cfg.trig (Vec3.cross forward st.current.up)
    let upCol := Vec3.cross right forward
    let flower : DecorationData :=
      { position := st.current.position,
        orientation := ⟨right, forward, upCol⟩,
        color := cfg.flowerColor, size := cfg.leafSize * (3 / 2), type := 1 }
    { st with decorations := st.decorations ++ [flower] }
  else if cmd = '!' then
    { st with current := { st.current with
        width := st.current.width * cfg.widthDecay } }
  else if cmd = Char.ofNat 39 then
    { st with current := { st.current with
        color := Vec3.mk (max 0 (st.current.color.x - 1 / 50))
          (min 1 (st.current.color.y + 1 / 20)) st.current.color.z } }
  else
    st

/-- The fresh state built at the top of `TurtleGraphics::interpret`:
default-constructed turtle with width and color overridden by the
configuration, empty stack, cleared geometry. -/
def initState (cfg : TGConfig) : TGState :=
  { current := { width := cfg.initialWidth, color := cfg.branchColor },
    stack := [], branches := [], decorations := [] }

/-- The command loop of `interpret`: process each symbol left to right. -/
def runCommands (cfg : TGConfig) (angle : ℚ) (st : TGState)
    (cmds : List Char) : TGState :=
  cmds.foldl (fun s c => processCommand cfg c angle s) st

/-- `TurtleGraphics::interpret(lsystemString, angle)` (minus the GPU upload,
which does not change the interpretation state). -/
def TurtleGraphics.interpret (cfg : TGConfig) (lsystemString : List Char)
    (angle : ℚ) : TGState :=
  runCommands cfg angle (initState cfg) lsystemString

/-- `TurtleGraphics::getBranchCount()`. -/
def TGState.getBranchCount (st : TGState) : ℕ :=
  st.branches.length

/-- Number of draw-forward symbols (`F`, `G`, `A`, `B`) in a string. -/
def countDraw : List Char → ℕ
  | [] => 0
  | c :: rest =>
      (if c = 'F' ∨ c = 'G' ∨ c = 'A' ∨ c = 'B' then 1 else 0) + countDraw rest

/-- A concrete trig instance for witnesses and counterexamples: the exact
values of cosine and sine at 90 degrees, and the exact square root of 1
(the only argument `glm::normalize` receives in those runs, since the frame
vectors involved are unit vectors). -/
def trigTest : TrigQ :=
  { cosD := fun _ => 0, sinD := fun _ => 1,
    sqrtQ := fun q => if q = 1 then 1 else 0 }

/-- A concrete configuration: all C++ defaults, with `trigTest`. -/
def cfgTest : TGConfig :=
  { trig := trigTest }

/-- Fallback branch used with `List.getD`. -/
def dummyBranch : BranchData :=
  { start := ⟨0, 0, 0⟩, stop := ⟨0, 0, 0⟩, radiusStart := 0, radiusEnd := 0,
    color := ⟨0, 0, 0⟩ }

lemma runCommands_nil (cfg : TGConfig) (angle : ℚ) (st : TGState) :
    runCommands cfg angle st [] = st := rfl

lemma runCommands_cons (cfg : TGConfig) (angle : ℚ) (st : TGState) (c : Char)
    (cs : List Char) :
    runCommands cfg angle st (c :: cs)
      = runCommands cfg angle (processCommand cfg c angle st) cs := rfl

lemma runCommands_append (cfg : TGConfig) (angle : ℚ) (st : TGState)
    (l1 l2 : List Char) :
    runCommands cfg angle st (l1 ++ l2)
      = runCommands cfg angle (runCommands cfg angle st l1) l2 := by
  induction l1 generalizing st with
  | nil => rfl
  | cons c cs ih =>
      rw [List.cons_append, runCommands_cons, runCommands_cons, ih]

/-- A draw-forward command (`F`, `G`, `A`, `B`): advance the position by
`heading * stepSize` and append one tapered branch record; nothing else
changes. -/
lemma process_draw (cfg : TGConfig) (angle : ℚ) (c : Char) (st : TGState)
    (h : c = 'F' ∨ c = 'G' ∨ c = 'A' ∨ c = 'B') :
    processCommand cfg c angle st =
      { st with
        current := { st.current with
          position := st.current.position + cfg.stepSize • st.current.heading },
        branches := st.branches ++
          [{ start := st.current.position,
             stop := st.current.position + cfg.stepSize • st.current.heading,
             radiusStart := st.current.width,
             radiusEnd := st.current.width * cfg.widthDecay,
             color := st.current.color }] } := by
  unfold processCommand
  rw [if_pos h]

lemma process_push (cfg : TGConfig) (angle : ℚ) (cur : TurtleState)
    (stk : List TurtleState) (br : List BranchData)
    (de : List DecorationData) :
    processCommand cfg '[' angle ⟨cur, stk, br, de⟩ =
      ⟨{ cur with depth := cur.depth + 1, width := cur.width * cfg.widthDecay },
        cur :: stk, br, de⟩ := rfl

lemma process_pop_cons (cfg : TGConfig) (angle : ℚ) (cur top : TurtleState)
    (rest : List TurtleState) (br : List BranchData)
    (de : List DecorationData) :
    processCommand cfg ']' angle ⟨cur, top :: rest, br, de⟩ =
      ⟨top, rest, br, de⟩ := rfl

lemma process_pop_nil (cfg : TGConfig) (angle : ℚ) (cur : TurtleState)
    (br : List BranchData) (de : List DecorationData) :
    processCommand cfg ']' angle ⟨cur, [], br, de⟩ = ⟨cur, [], br, de⟩ := rfl

/-- `f`: move forward without drawing. -/
lemma process_fwd (cfg : TGConfig) (angle : ℚ) (st : TGState) :
    processCommand cfg 'f' angle st =
      { st with current := { st.current with
          position := st.current.position + cfg.stepSize • st.current.heading } } := rfl

/-- `+`: yaw left around `up` (3D) or the fixed Z axis (2D). -/
lemma process_plus (cfg : TGConfig) (angle : ℚ) (st : TGState) :
    processCommand cfg '+' angle st =
      { st with current := { st.current with
          heading := rotateAroundAxis cfg.trig st.current.heading
            (if cfg.is3D then st.current.up else Vec3.mk 0 0 1) angle,
          left := rotateAroundAxis cfg.trig st.current.left
            (if cfg.is3D then st.current.up else Vec3.mk 0 0 1) angle } } := rfl

/-- `-`: yaw right. -/
lemma process_minus (cfg : TGConfig) (angle : ℚ) (st : TGState) :
    processCommand cfg '-' angle st =
      { st with current := { st.current with
          heading := rotateAroundAxis cfg.trig st.current.heading
            (if cfg.is3D then st.current.up else Vec3.mk 0 0 1) (-angle),
          left := rotateAroundAxis cfg.trig st.current.left
            (if cfg.is3D then st.current.up else Vec3.mk 0 0 1) (-angle) } } := rfl

/-- `&`: pitch down around `left` (applied regardless of the 3D flag). -/
lemma process_amp (cfg : TGConfig) (angle : ℚ) (st : TGState) :
    processCommand cfg '&' angle st =
      { st with current := { st.current with
          heading := rotateAroundAxis cfg.trig st.current.heading
            st.current.left angle,
          up := rotateAroundAxis cfg.trig st.current.up st.current.left
            angle } } := rfl

/-- `^`: pitch up around `left` (applied regardless of the 3D flag). -/
lemma process_caret (cfg : TGConfig) (angle : ℚ) (st : TGState) :
    processCommand cfg '^' angle st =
      { st with current := { st.current with
          heading := rotateAroundAxis cfg.trig st.current.heading
            st.current.left (-angle),
          up := rotateAroundAxis cfg.trig st.current.up st.current.left
            (-angle) } } := rfl

/-- `\\`: roll left around `heading` (applied regardless of the 3D flag). -/
lemma process_bslash (cfg : TGConfig) (angle : ℚ) (st : TGState) :
    processCommand cfg '\\' angle st =
      { st with current := { st.current with
          left := rotateAroundAxis cfg.trig st.current.left
            st.current.heading angle,
          up := rotateAroundAxis cfg.trig st.current.up st.current.heading
            angle } } := rfl

/-- `/`: roll right around `heading` (applied regardless of the 3D flag). -/
lemma process_fslash (cfg : TGConfig) (angle : ℚ) (st : TGState) :
    processCommand cfg '/' angle st =
      { st with current := { st.current with
          left := rotateAroundAxis cfg.trig st.current.left
            st.current.heading (-angle),
          up := rotateAroundAxis cfg.trig st.current.up st.current.heading
            (-angle) } } := rfl

/-- `|`: turn around by 180 degrees. -/
lemma process_pipe (cfg : TGConfig) (angle : ℚ) (st : TGState) :
    processCommand cfg '|' angle st =
      { st with current := { st.current with
          heading := rotateAroundAxis cfg.trig st.current.heading
            (if cfg.is3D then st.current.up else Vec3.mk 0 0 1) 180,
          left := rotateAroundAxis cfg.trig st.current.left
            (if cfg.is3D then st.current.up else Vec3.mk 0 0 1) 180 } } := rfl

/-- `[`: push a copy of the current state, increment depth, decay width. -/
lemma process_pushU (cfg : TGConfig) (angle : ℚ) (st : TGState) :
    processCommand cfg '[' angle st =
      { st with stack := st.current :: st.stack,
                current := { st.current with
                  depth := st.current.depth + 1,
                  width := st.current.width * cfg.widthDecay } } := rfl

/-- `L`: emit a leaf decoration. -/
lemma process_leafU (cfg : TGConfig) (angle : ℚ) (st : TGState) :
    processCommand cfg 'L' angle st =
      { st with decorations := st.decorations ++
          [{ position := st.current.position,
             orientation :=
               ⟨normalizeV cfg.trig
                   (Vec3.cross (normalizeV cfg.trig st.current.heading)
                     st.current.up),
                 normalizeV cfg.trig st.current.heading,
                 Vec3.cross
                   (normalizeV cfg.trig
                     (Vec3.cross (normalizeV cfg.trig st.current.heading)
                       st.current.up))
                   (normalizeV cfg.trig st.current.heading)⟩,
             color := cfg.leafColor, size := cfg.leafSize, type := 0 }] } := rfl

/-- `l`: emit a leaf decoration. -/
lemma process_leafLow (cfg : TGConfig) (angle : ℚ) (st : TGState) :
    processCommand cfg 'l' angle st = processCommand cfg 'L' angle st := rfl

/-- `K`: emit a flower decoration. -/
lemma process_flowerU (cfg : TGConfig) (angle : ℚ) (st : TGState) :
    processCommand cfg 'K' angle st =
      { st with decorations := st.decorations ++
          [{ position := st.current.position,
             orientation :=
               ⟨normalizeV cfg.trig
                   (Vec3.cross (normalizeV cfg.trig st.current.heading)
                     st.current.up),
                 normalizeV cfg.trig st.current.heading,
                 Vec3.cross
                   (normalizeV cfg.trig
                     (Vec3.cross (normalizeV cfg.trig st.current.heading)
                       st.current.up))
                   (normalizeV cfg.trig st.current.heading)⟩,
             color := cfg.flowerColor, size := cfg.leafSize * (3 / 2),
             type := 1 }] } := rfl

/-- `k`: emit a flower decoration. -/
lemma process_flowerLow (cfg : TGConfig) (angle : ℚ) (st : TGState) :
    processCommand cfg 'k' angle st = processCommand cfg 'K' angle st := rfl

/-- `!`: decay the current width. -/
lemma process_bang (cfg : TGConfig) (angle : ℚ) (st : TGState) :
    processCommand cfg '!' angle st =
      { st with current := { st.current with
          width := st.current.width * cfg.widthDecay } } := rfl

/-- The apostrophe command: shift the color toward green. -/
lemma process_quote (cfg : TGConfig) (angle : ℚ) (st : TGState) :
    processCommand cfg (Char.ofNat 39) angle st =
      { st with current := { st.current with
          color := Vec3.mk (max 0 (st.current.color.x - 1 / 50))
            (min 1 (st.current.color.y + 1 / 20)) st.current.color.z } } := rfl

/-- Any symbol outside the command vocabulary is a no-op. -/
lemma process_unknown (cfg : TGConfig) (angle : ℚ) (c : Char) (st : TGState)
    (hd : ¬(c = 'F' ∨ c = 'G' ∨ c = 'A' ∨ c = 'B')) (hf : ¬c = 'f')
    (hp : ¬c = '+') (hm : ¬c = '-') (ha : ¬c = '&') (hc : ¬c = '^')
    (hb : ¬c = '\\') (hs : ¬c = '/') (hv : ¬c = '|') (ho : ¬c = '[')
    (he : ¬c = ']') (hL : ¬c = 'L') (hl : ¬c = 'l') (hK : ¬c = 'K')
    (hk : ¬c = 'k') (hx : ¬c = '!') (hq : ¬c = Char.ofNat 39) :
    processCommand cfg c angle st = st := by
  unfold processCommand
  rw [if_neg hd, if_neg hf, if_neg hp, if_neg hm, if_neg ha, if_neg hc,
    if_neg hb, if_neg hs, if_neg hv, if_neg ho, if_neg he,
    if_neg (not_or.mpr ⟨hL, hl⟩), if_neg (not_or.mpr ⟨hK, hk⟩), if_neg hx,
    if_neg hq]

/-- Every command other than a draw-forward, `[` and `]` leaves both the
stack and the branch list alone. -/
lemma process_other_fields (cfg : TGConfig) (angle : ℚ) (c : Char)
    (st : TGState) (hd : ¬(c = 'F' ∨ c = 'G' ∨ c = 'A' ∨ c = 'B'))
    (h1 : ¬c = '[') (h2 : ¬c = ']') :
    (processCommand cfg c angle st).stack = st.stack ∧
    (processCommand cfg c angle st).branches = st.branches := by
  by_cases hf : c = 'f'
  · subst hf; rw [process_fwd]; exact ⟨rfl, rfl⟩
  by_cases hp : c = '+'
  · subst hp; rw [process_plus]; exact ⟨rfl, rfl⟩
  by_cases hm : c = '-'
  · subst hm; rw [process_minus]; exact ⟨rfl, rfl⟩
  by_cases ha : c = '&'
  · subst ha; rw [process_amp]; exact ⟨rfl, rfl⟩
  by_cases hc : c = '^'
  · subst hc; rw [process_caret]; exact ⟨rfl, rfl⟩
  by_cases hb : c = '\\'
  · subst hb; rw [process_bslash]; exact ⟨rfl, rfl⟩
  by_cases hs : c = '/'
  · subst hs; rw [process_fslash]; exact ⟨rfl, rfl⟩
  by_cases hv : c = '|'
  · subst hv; rw [process_pipe]; exact ⟨rfl, rfl⟩
  by_cases hL : c = 'L'
  · subst hL; rw [process_leafU]; exact ⟨rfl, rfl⟩
  by_cases hl : c = 'l'
  · subst hl; rw [process_leafLow, process_leafU]; exact ⟨rfl, rfl⟩
  by_cases hK : c = 'K'
  · subst hK; rw [process_flowerU]; exact ⟨rfl, rfl⟩
  by_cases hk : c = 'k'
  · subst hk; rw [process_flowerLow, process_flowerU]; exact ⟨rfl, rfl⟩
  by_cases hx : c = '!'
  · subst hx; rw [process_bang]; exact ⟨rfl, rfl⟩
  by_cases hq : c = Char.ofNat 39
  · subst hq; rw [process_quote]; exact ⟨rfl, rfl⟩
  rw [process_unknown cfg angle c st hd hf hp hm ha hc hb hs hv h1 h2 hL hl
    hK hk hx hq]
  exact ⟨rfl, rfl⟩

/-- Every command other than `[` and `]` leaves the state stack alone. -/
lemma stack_process_other (cfg : TGConfig) (angle : ℚ) (c : Char)
    (st : TGState) (h1 : ¬c = '[') (h2 : ¬c = ']') :
    (processCommand cfg c angle st).stack = st.stack := by
  by_cases hd : c = 'F' ∨ c = 'G' ∨ c = 'A' ∨ c = 'B'
  · rw [process_draw cfg angle c st hd]
  · exact (process_other_fields cfg angle c st hd h1 h2).1

/-- Branch counting: each command adds one branch record exactly when it is
a draw-forward symbol. -/
lemma branches_length_process (cfg : TGConfig) (angle : ℚ) (c : Char)
    (st : TGState) :
    (processCommand cfg c angle st).branches.length =
      st.branches.length +
        (if c = 'F' ∨ c = 'G' ∨ c = 'A' ∨ c = 'B' then 1 else 0) := by
  by_cases hd : c = 'F' ∨ c = 'G' ∨ c = 'A' ∨ c = 'B'
  · rw [process_draw cfg angle c st hd, if_pos hd]
    simp
  rw [if_neg hd]
  by_cases ho : c = '['
  · subst ho; rw [process_pushU]; simp
  by_cases he : c = ']'
  · subst he
    obtain ⟨cur, stk, br, de⟩ := st
    cases stk with
    | nil => rw [process_pop_nil]; simp
    | cons t rest => rw [process_pop_cons]; simp
  · rw [(process_other_fields cfg angle c st hd ho he).2]
    simp

lemma branches_length_run (cfg : TGConfig) (angle : ℚ) :
    ∀ (s : List Char) (st : TGState),
      (runCommands cfg angle st s).branches.length =
        st.branches.length + countDraw s
  | [], st => by simp [runCommands_nil, countDraw]
  | c :: rest, st => by
      rw [runCommands_cons, countDraw,
        branches_length_run cfg angle rest (processCommand cfg c angle st),
        branches_length_process]
      omega

/-- C2: for every configuration, input string and angle, the number of
branch records emitted by `interpret` (`getBranchCount()`) equals exactly
the number of draw-forward symbols `F`, `G`, `A`, `B` in the string; no
other symbol emits a branch record. -/
theorem branch_count_eq_draw_count_c2 (cfg : TGConfig) (s : List Char)
    (angle : ℚ) :
    (TurtleGraphics.interpret cfg s angle).getBranchCount = countDraw s := by
  show (runCommands cfg angle (initState cfg) s).branches.length = countDraw s
  rw [branches_length_run]
  simp [initState]

/-- Bracket-balance check: starting from `k` open brackets, scan the string;
`]` must never exceed the open count, and the count must return to zero at
the end. -/
def balChk : ℕ → List Char → Bool
  | k, [] => k == 0
  | k, c :: rest =>
      if c = '[' then balChk (k + 1) rest
      else if c = ']' then decide (0 < k) && balChk (k - 1) rest
      else balChk k rest

/-- A string is bracket-balanced when its `[` / `]` nest correctly and
match up exactly. -/
def balancedB (u : List Char) : Bool :=
  balChk 0 u

/-- Processing a string whose `]` count never exceeds `k` plus its running
`[` count, and whose bracket counts net out at `k` pops, consumes exactly
the `k` topmost saved states: the part of the stack below them is restored
verbatim. -/
lemma run_bal (cfg : TGConfig) (angle : ℚ) :
    ∀ (u : List Char) (k : ℕ) (st : TGState) (top base : List TurtleState),
      st.stack = top ++ base → top.length = k → balChk k u = true →
      (runCommands cfg angle st u).stack = base := by
  intro u
  induction u with
  | nil =>
      intro k st top base hs hl hb
      rw [balChk] at hb
      have hk : k = 0 := by simpa using hb
      subst hk
      have htop : top = [] := List.eq_nil_of_length_eq_zero hl
      subst htop
      rw [runCommands_nil, hs, List.nil_append]
  | cons c rest ih =>
      intro k st top base hs hl hb
      rw [runCommands_cons]
      by_cases hc1 : c = '['
      · subst hc1
        rw [balChk, if_pos rfl] at hb
        refine ih (k + 1) _ (st.current :: top) base ?_ ?_ hb
        · rw [process_pushU]
          show st.current :: st.stack = st.current :: top ++ base
          rw [hs, List.cons_append]
        · simp [hl]
      · by_cases hc2 : c = ']'
        · subst hc2
          rw [balChk, if_neg (by decide), if_pos rfl, Bool.and_eq_true,
            decide_eq_true_eq] at hb
          obtain ⟨hk, hb'⟩ := hb
          cases top with
          | nil =>
              rw [List.length_nil] at hl
              omega
          | cons t top' =>
              obtain ⟨cur, stk, br, de⟩ := st
              have hstk : stk = t :: (top' ++ base) := hs
              subst hstk
              rw [process_pop_cons]
              refine ih (k - 1) _ top' base rfl ?_ hb'
              have hlen : top'.length + 1 = k := by simpa using hl
              omega
        · rw [balChk, if_neg hc1, if_neg hc2] at hb
          refine ih k _ top base ?_ hl hb
          rw [stack_process_other cfg angle c st hc1 hc2, hs]


/-- `]` with a nonempty stack pops the top saved state. -/
lemma process_pop_eq (cfg : TGConfig) (angle : ℚ) (st : TGState)
    (t : TurtleState) (rest : List TurtleState)
    (h : st.stack = t :: rest) :
    processCommand cfg ']' angle st =
      { st with current := t, stack := rest } := by
  obtain ⟨cur, stk, br, de⟩ := st
  have h' : stk = t :: rest := h
  subst h'
  rw [process_pop_cons]

lemma process_F (cfg : TGConfig) (angle : ℚ) (st : TGState) :
    processCommand cfg 'F' angle st =
      { st with
        current := { st.current with
          position := st.current.position + cfg.stepSize • st.current.heading },
        branches := st.branches ++
          [{ start := st.current.position,
             stop := st.current.position + cfg.stepSize • st.current.heading,
             radiusStart := st.current.width,
             radiusEnd := st.current.width * cfg.widthDecay,
             color := st.current.color }] } := rfl

lemma initState_eq (cfg : TGConfig) :
    initState cfg =
      ⟨⟨⟨0, 0, 0⟩, ⟨0, 1, 0⟩, ⟨-1, 0, 0⟩, ⟨0, 0, 1⟩, cfg.initialWidth,
          cfg.branchColor, 0⟩, [], [], []⟩ := rfl

lemma Vec3.add_mk (a b c d e f : ℚ) :
    (⟨a, b, c⟩ + ⟨d, e, f⟩ : Vec3) = ⟨a + d, b + e, c + f⟩ := rfl

lemma Vec3.smul_mk (r a b c : ℚ) :
    r • (⟨a, b, c⟩ : Vec3) = ⟨r * a, r * b, r * c⟩ := rfl

/-- C3: for every balanced string `u`, processing the bracketed group
`[ u ]` returns the turtle's position and orientation (heading, left, up)
to exactly their values immediately before the `[`; and interpreting
`F[+F][-F]F` (for any configuration and angle) ends with the position equal
to a straight-line advance of two step units from the origin along the
initial heading, with no net rotation. -/
theorem bracket_restores_state_c3 (cfg : TGConfig) (angle : ℚ)
    (u : List Char) (st : TGState) (h : balancedB u = true) :
    ((runCommands cfg angle st (('[' :: u) ++ [']'])).current.position
        = st.current.position ∧
      (runCommands cfg angle st (('[' :: u) ++ [']'])).current.heading
        = st.current.heading ∧
      (runCommands cfg angle st (('[' :: u) ++ [']'])).current.left
        = st.current.left ∧
      (runCommands cfg angle st (('[' :: u) ++ [']'])).current.up
        = st.current.up) ∧
    ((TurtleGraphics.interpret cfg ("F[+F][-F]F".toList) angle).current.position
        = Vec3.mk 0 (2 * cfg.stepSize) 0 ∧
      (TurtleGraphics.interpret cfg ("F[+F][-F]F".toList) angle).current.heading
        = Vec3.mk 0 1 0 ∧
      (TurtleGraphics.interpret cfg ("F[+F][-F]F".toList) angle).current.left
        = Vec3.mk (-1) 0 0 ∧
      (TurtleGraphics.interpret cfg ("F[+F][-F]F".toList) angle).current.up
        = Vec3.mk 0 0 1) := by
  constructor
  · have hx : (runCommands cfg angle (processCommand cfg '[' angle st) u).stack
        = st.current :: st.stack :=
      run_bal cfg angle u 0 (processCommand cfg '[' angle st) []
        (st.current :: st.stack) rfl rfl h
    have hrun : (runCommands cfg angle st (('[' :: u) ++ [']'])).current
        = st.current := by
      rw [List.cons_append, runCommands_cons, runCommands_append,
        runCommands_cons, runCommands_nil,
        process_pop_eq cfg angle _ st.current st.stack hx]
    rw [hrun]
    exact ⟨rfl, rfl, rfl, rfl⟩
  · have hl : "F[+F][-F]F".toList
        = ['F', '[', '+', 'F', ']', '[', '-', 'F', ']', 'F'] := rfl
    refine ⟨?_, ?_, ?_, ?_⟩ <;>
      simp [TurtleGraphics.interpret, hl, runCommands_cons, runCommands_nil,
        initState_eq, process_F, process_pushU, process_plus, process_minus,
        process_pop_cons, Vec3.add_mk, Vec3.smul_mk, Vec3.mk.injEq, two_mul]

theorem bracket_restores_state_c3_witness :
    balancedB ("+F".toList) = true ∧
    (((runCommands cfgTest 90 (initState cfgTest)
          (('[' :: "+F".toList) ++ [']'])).current.position
        = (initState cfgTest).current.position ∧
      (runCommands cfgTest 90 (initState cfgTest)
          (('[' :: "+F".toList) ++ [']'])).current.heading
        = (initState cfgTest).current.heading ∧
      (runCommands cfgTest 90 (initState cfgTest)
          (('[' :: "+F".toList) ++ [']'])).current.left
        = (initState cfgTest).current.left ∧
      (runCommands cfgTest 90 (initState cfgTest)
          (('[' :: "+F".toList) ++ [']'])).current.up
        = (initState cfgTest).current.up) ∧
    ((TurtleGraphics.interpret cfgTest ("F[+F][-F]F".toList) 90).current.position
        = Vec3.mk 0 (2 * cfgTest.stepSize) 0 ∧
      (TurtleGraphics.interpret cfgTest ("F[+F][-F]F".toList) 90).current.heading
        = Vec3.mk 0 1 0 ∧
      (TurtleGraphics.interpret cfgTest ("F[+F][-F]F".toList) 90).current.left
        = Vec3.mk (-1) 0 0 ∧
      (TurtleGraphics.interpret cfgTest ("F[+F][-F]F".toList) 90).current.up
        = Vec3.mk 0 0 1)) :=
  ⟨by decide,
    bracket_restores_state_c3 cfgTest 90 ("+F".toList) (initState cfgTest)
      (by decide)⟩

/-- C4 counterexample: in 2D mode (`is3D = false`), a pitch command `&` and
a roll command `\` are not no-ops: at a 90 degree angle (cosine 0, sine 1)
the heading respectively the up vector change. -/
theorem pitch_not_noop_2d_c4_cex :
    cfgTest.is3D = false ∧
    (processCommand cfgTest '&' 90 (initState cfgTest)).current.heading
      ≠ (initState cfgTest).current.heading ∧
    (processCommand cfgTest '\\' 90 (initState cfgTest)).current.up
      ≠ (initState cfgTest).current.up := by
  refine ⟨rfl, ?_, ?_⟩ <;>
    norm_num [process_amp, process_bslash, initState_eq, cfgTest, trigTest,
      rotateAroundAxis, normalizeV, Vec3.dot, Vec3.cross, Vec3.smul_mk,
      Vec3.add_mk, Vec3.mk.injEq]

/-- C4 (amended): the 3D-mode flag is not consulted by the pitch and roll
cases: even with the flag false, `&` / `^` rotate `heading` and `up` around
the current `left` axis by plus/minus the angle, and `\` / `/` rotate
`left` and `up` around the current `heading` axis; position, width, color,
depth and the geometry lists are unchanged. -/
theorem pitch_roll_effect_c4 (cfg : TGConfig) (angle : ℚ) (st : TGState)
    (h : cfg.is3D = false) :
    processCommand cfg '&' angle st =
      { st with current := { st.current with
          heading := rotateAroundAxis cfg.trig st.current.heading
            st.current.left angle,
          up := rotateAroundAxis cfg.trig st.current.up st.current.left
            angle } } ∧
    processCommand cfg '^' angle st =
      { st with current := { st.current with
          heading := rotateAroundAxis cfg.trig st.current.heading
            st.current.left (-angle),
          up := rotateAroundAxis cfg.trig st.current.up st.current.left
            (-angle) } } ∧
    processCommand cfg '\\' angle st =
      { st with current := { st.current with
          left := rotateAroundAxis cfg.trig st.current.left
            st.current.heading angle,
          up := rotateAroundAxis cfg.trig st.current.up st.current.heading
            angle } } ∧
    processCommand cfg '/' angle st =
      { st with current := { st.current with
          left := rotateAroundAxis cfg.trig st.current.left
            st.current.heading (-angle),
          up := rotateAroundAxis cfg.trig st.current.up st.current.heading
            (-angle) } } :=
  ⟨process_amp cfg angle st, process_caret cfg angle st,
    process_bslash cfg angle st, process_fslash cfg angle st⟩

theorem pitch_roll_effect_c4_witness :
    cfgTest.is3D = false ∧
    (processCommand cfgTest '&' 90 (initState cfgTest) =
      { initState cfgTest with current := { (initState cfgTest).current with
          heading := rotateAroundAxis cfgTest.trig
            (initState cfgTest).current.heading
            (initState cfgTest).current.left 90,
          up := rotateAroundAxis cfgTest.trig (initState cfgTest).current.up
            (initState cfgTest).current.left 90 } } ∧
    processCommand cfgTest '^' 90 (initState cfgTest) =
      { initState cfgTest with current := { (initState cfgTest).current with
          heading := rotateAroundAxis cfgTest.trig
            (initState cfgTest).current.heading
            (initState cfgTest).current.left (-90),
          up := rotateAroundAxis cfgTest.trig (initState cfgTest).current.up
            (initState cfgTest).current.left (-90) } } ∧
    processCommand cfgTest '\\' 90 (initState cfgTest) =
      { initState cfgTest with current := { (initState cfgTest).current with
          left := rotateAroundAxis cfgTest.trig
            (initState cfgTest).current.left
            (initState cfgTest).current.heading 90,
          up := rotateAroundAxis cfgTest.trig (initState cfgTest).current.up
            (initState cfgTest).current.heading 90 } } ∧
    processCommand cfgTest '/' 90 (initState cfgTest) =
      { initState cfgTest with current := { (initState cfgTest).current with
          left := rotateAroundAxis cfgTest.trig
            (initState cfgTest).current.left
            (initState cfgTest).current.heading (-90),
          up := rotateAroundAxis cfgTest.trig (initState cfgTest).current.up
            (initState cfgTest).current.heading (-90) } }) :=
  ⟨rfl, pitch_roll_effect_c4 cfgTest 90 (initState cfgTest) rfl⟩

/-- C7: a `]` command with an empty state stack is silently ignored: the
whole interpretation state (current turtle, stack, geometry) is unchanged
and interpretation of the rest of the string continues as if the `]` were
absent. -/
theorem pop_empty_stack_noop_c7 (cfg : TGConfig) (angle : ℚ) (st : TGState)
    (rest : List Char) (h : st.stack = []) :
    processCommand cfg ']' angle st = st ∧
    runCommands cfg angle st (']' :: rest) = runCommands cfg angle st rest := by
  have h1 : processCommand cfg ']' angle st = st := by
    obtain ⟨cur, stk, br, de⟩ := st
    have h' : stk = [] := h
    subst h'
    rw [process_pop_nil]
  exact ⟨h1, by rw [runCommands_cons, h1]⟩

theorem pop_empty_stack_noop_c7_witness :
    (initState cfgTest).stack = [] ∧
    (processCommand cfgTest ']' 25 (initState cfgTest) = initState cfgTest ∧
      runCommands cfgTest 25 (initState cfgTest) (']' :: "F".toList)
        = runCommands cfgTest 25 (initState cfgTest) ("F".toList)) :=
  ⟨rfl, pop_empty_stack_noop_c7 cfgTest 25 (initState cfgTest) ("F".toList) rfl⟩

/-- C10: a draw-forward command changes only the position (advancing it by
`heading * stepSize`) and appends exactly one branch record; heading, left,
up, width, color and depth are unchanged.  Since the tapered end radius is
not written back to the turtle's width, two consecutive draw-forward
commands emit records with identical start radii and identical end radii,
each starting at the current width and ending at width times widthDecay. -/
theorem draw_frame_effect_c10 (cfg : TGConfig) (angle : ℚ) (st : TGState)
    (c c' : Char) (h : c = 'F' ∨ c = 'G' ∨ c = 'A' ∨ c = 'B')
    (h' : c' = 'F' ∨ c' = 'G' ∨ c' = 'A' ∨ c' = 'B') :
    processCommand cfg c angle st =
      { st with
        current := { st.current with
          position := st.current.position + cfg.stepSize • st.current.heading },
        branches := st.branches ++
          [{ start := st.current.position,
             stop := st.current.position + cfg.stepSize • st.current.heading,
             radiusStart := st.current.width,
             radiusEnd := st.current.width * cfg.widthDecay,
             color := st.current.color }] } ∧
    (runCommands cfg angle st [c, c']).branches.map
        (fun b => (b.radiusStart, b.radiusEnd))
      = st.branches.map (fun b => (b.radiusStart, b.radiusEnd)) ++
        [(st.current.width, st.current.width * cfg.widthDecay),
         (st.current.width, st.current.width * cfg.widthDecay)] := by
  refine ⟨process_draw cfg angle c st h, ?_⟩
  rw [runCommands_cons, runCommands_cons, runCommands_nil,
    process_draw cfg angle c st h, process_draw cfg angle c' _ h']
  simp

theorem draw_frame_effect_c10_witness :
    (('F' : Char) = 'F' ∨ ('F' : Char) = 'G' ∨ ('F' : Char) = 'A' ∨
        ('F' : Char) = 'B') ∧
    (('G' : Char) = 'F' ∨ ('G' : Char) = 'G' ∨ ('G' : Char) = 'A' ∨
        ('G' : Char) = 'B') ∧
    (processCommand cfgTest 'F' 25 (initState cfgTest) =
      { initState cfgTest with
        current := { (initState cfgTest).current with
          position := (initState cfgTest).current.position +
            cfgTest.stepSize • (initState cfgTest).current.heading },
        branches := (initState cfgTest).branches ++
          [{ start := (initState cfgTest).current.position,
             stop := (initState cfgTest).current.position +
               cfgTest.stepSize • (initState cfgTest).current.heading,
             radiusStart := (initState cfgTest).current.width,
             radiusEnd := (initState cfgTest).current.width *
               cfgTest.widthDecay,
             color := (initState cfgTest).current.color }] } ∧
    (runCommands cfgTest 25 (initState cfgTest) ['F', 'G']).branches.map
        (fun b => (b.radiusStart, b.radiusEnd))
      = (initState cfgTest).branches.map
          (fun b => (b.radiusStart, b.radiusEnd)) ++
        [((initState cfgTest).current.width,
          (initState cfgTest).current.width * cfgTest.widthDecay),
         ((initState cfgTest).current.width,
          (initState cfgTest).current.width * cfgTest.widthDecay)]) :=
  ⟨by decide, by decide,
    draw_frame_effect_c10 cfgTest 25 (initState cfgTest) 'F' 'G'
      (by decide) (by decide)⟩

/-- A run of `j` consecutive pushes multiplies the current width by
`widthDecay ^ j` and changes neither position, heading, color nor the
branch list. -/
lemma run_pushes (cfg : TGConfig) (angle : ℚ) :
    ∀ (j : ℕ) (st : TGState),
      (runCommands cfg angle st (List.replicate j '[')).current.width
          = st.current.width * cfg.widthDecay ^ j ∧
      (runCommands cfg angle st (List.replicate j '[')).current.position
          = st.current.position ∧
      (runCommands cfg angle st (List.replicate j '[')).current.heading
          = st.current.heading ∧
      (runCommands cfg angle st (List.replicate j '[')).current.color
          = st.current.color ∧
      (runCommands cfg angle st (List.replicate j '[')).branches
          = st.branches
  | 0, st => by
      rw [List.replicate_zero, runCommands_nil]
      refine ⟨?_, rfl, rfl, rfl, rfl⟩
      rw [pow_zero, mul_one]
  | j + 1, st => by
      rw [List.replicate_succ, runCommands_cons, process_pushU]
      obtain ⟨hw, hp, hh, hc, hb⟩ := run_pushes cfg angle j
        { st with stack := st.current :: st.stack,
                  current := { st.current with
                    depth := st.current.depth + 1,
                    width := st.current.width * cfg.widthDecay } }
      refine ⟨?_, ?_, ?_, ?_, ?_⟩
      · rw [hw]
        show st.current.width * cfg.widthDecay * cfg.widthDecay ^ j = _
        rw [pow_succ]
        ring
      · rw [hp]
      · rw [hh]
      · rw [hc]
      · rw [hb]

/-- Pushes followed by a draw: the emitted branch starts at the unchanged
position with the decayed width. -/
lemma pushes_then_draw (cfg : TGConfig) (angle : ℚ) (st1 : TGState)
    (j : ℕ) :
    (runCommands cfg angle st1 (List.replicate j '[' ++ ['F'])).branches
      = st1.branches ++
        [{ start := st1.current.position,
           stop := st1.current.position + cfg.stepSize • st1.current.heading,
           radiusStart := st1.current.width * cfg.widthDecay ^ j,
           radiusEnd := st1.current.width * cfg.widthDecay ^ j *
             cfg.widthDecay,
           color := st1.current.color }] := by
  obtain ⟨hw, hp, hh, hc, hb⟩ := run_pushes cfg angle j st1
  rw [runCommands_append, runCommands_cons, runCommands_nil, process_F,
    hb, hw, hp, hh, hc]

/-- C9 counterexample: interpreting `F[F` with the default configuration
(width 0.02, widthDecay 0.7), the branch drawn right after the push has
start radius 0.014, which is strictly greater than the enclosing branch's
end radius (0.014) times widthDecay (= 0.0098): the claimed bound
`start ≤ end * widthDecay` fails after a single push. -/
theorem width_decay_c9_cex :
    (TurtleGraphics.interpret cfgTest ("F[F".toList) 25).branches.length = 2 ∧
    ¬ (((TurtleGraphics.interpret cfgTest ("F[F".toList) 25).branches.getD 1
          dummyBranch).radiusStart ≤
        ((TurtleGraphics.interpret cfgTest ("F[F".toList) 25).branches.getD 0
          dummyBranch).radiusEnd * cfgTest.widthDecay) := by
  have hl : "F[F".toList = ['F', '[', 'F'] := rfl
  constructor <;>
    norm_num [TurtleGraphics.interpret, hl, runCommands_cons, runCommands_nil,
      initState_eq, process_F, process_pushU, cfgTest,
      List.getD_cons_zero, List.getD_cons_succ]

/-- C9 (amended): along a single unbroken (non-popped) run of `j ≥ 1` push
commands between an enclosing draw and the next draw, the subsequent
branch's start radius is `width * widthDecay ^ j`: it is at most the
enclosing branch's end radius `width * widthDecay` (with equality after
exactly one push), and at most its start radius — the start radius never
increases from one nesting level to the next, and each single push never
increases the width (assuming `0 ≤ widthDecay ≤ 1` and a nonnegative
width, as in the defaults). -/
theorem width_decay_c9 (cfg : TGConfig) (angle : ℚ) (st : TGState) (j : ℕ)
    (hj : 1 ≤ j) (h0 : 0 ≤ cfg.widthDecay) (h1 : cfg.widthDecay ≤ 1)
    (hw : 0 ≤ st.current.width) :
    ((runCommands cfg angle st (('F' :: List.replicate j '[') ++ ['F'])).branches.map
        (fun b => (b.radiusStart, b.radiusEnd))
      = st.branches.map (fun b => (b.radiusStart, b.radiusEnd)) ++
        [(st.current.width, st.current.width * cfg.widthDecay),
         (st.current.width * cfg.widthDecay ^ j,
          st.current.width * cfg.widthDecay ^ j * cfg.widthDecay)] ∧
      st.current.width * cfg.widthDecay ^ j
        ≤ st.current.width * cfg.widthDecay ∧
      st.current.width * cfg.widthDecay ^ j ≤ st.current.width) ∧
    ∀ st' : TGState, 0 ≤ st'.current.width →
      (processCommand cfg '[' angle st').current.width
        ≤ st'.current.width := by
  refine ⟨⟨?_, ?_, ?_⟩, ?_⟩
  · rw [List.cons_append, runCommands_cons, process_F, pushes_then_draw]
    simp
  · have h2 : cfg.widthDecay ^ j ≤ cfg.widthDecay ^ 1 :=
      pow_le_pow_of_le_one h0 h1 hj
    rw [pow_one] at h2
    exact mul_le_mul_of_nonneg_left h2 hw
  · have h3 : cfg.widthDecay ^ j ≤ 1 := pow_le_one₀ h0 h1
    calc st.current.width * cfg.widthDecay ^ j
        ≤ st.current.width * 1 := mul_le_mul_of_nonneg_left h3 hw
      _ = st.current.width := mul_one _
  · intro st' hw'
    rw [process_pushU]
    exact mul_le_of_le_one_right hw' h1

theorem width_decay_c9_witness :
    1 ≤ 1 ∧ (0 : ℚ) ≤ cfgTest.widthDecay ∧ cfgTest.widthDecay ≤ 1 ∧
    (0 : ℚ) ≤ (initState cfgTest).current.width ∧
    (((runCommands cfgTest 25 (initState cfgTest)
          (('F' :: List.replicate 1 '[') ++ ['F'])).branches.map
          (fun b => (b.radiusStart, b.radiusEnd))
        = (initState cfgTest).branches.map
            (fun b => (b.radiusStart, b.radiusEnd)) ++
          [((initState cfgTest).current.width,
            (initState cfgTest).current.width * cfgTest.widthDecay),
           ((initState cfgTest).current.width * cfgTest.widthDecay ^ 1,
            (initState cfgTest).current.width * cfgTest.widthDecay ^ 1 *
              cfgTest.widthDecay)] ∧
      (initState cfgTest).current.width * cfgTest.widthDecay ^ 1
        ≤ (initState cfgTest).current.width * cfgTest.widthDecay ∧
      (initState cfgTest).current.width * cfgTest.widthDecay ^ 1
        ≤ (initState cfgTest).current.width) ∧
    ∀ st' : TGState, 0 ≤ st'.current.width →
      (processCommand cfgTest '[' 25 st').current.width
        ≤ st'.current.width) :=
  ⟨le_refl 1, by norm_num [cfgTest], by norm_num [cfgTest],
    by norm_num [initState_eq, cfgTest],
    width_decay_c9 cfgTest 25 (initState cfgTest) 1 (le_refl 1)
      (by norm_num [cfgTest]) (by norm_num [cfgTest])
      (by norm_num [initState_eq, cfgTest])⟩
